import Mathlib

/-!
Verification of the mass-spring simulation stepper `SimTimeStep` from
`project3_TriangularMeshes/project4.js`, shallowly embedded over exact real
arithmetic.  The stepper advances particle positions and velocities by one
time step: gravity and spring forces are accumulated, a semi-implicit Euler
update integrates each particle, and positions are clamped to the box
[-1, 1]^3 with velocity reflection scaled by a restitution coefficient.
-/

/-- 3-component vector of reals, modelling the harness's `Vec3` objects
(fields `x`, `y`, `z`). -/
@[ext] structure Vec3 where
  x : ℝ
  y : ℝ
  z : ℝ

namespace Vec3

/-- Componentwise addition (`Vec3.add`). -/
noncomputable def add (a b : Vec3) : Vec3 := ⟨a.x + b.x, a.y + b.y, a.z + b.z⟩

/-- Componentwise subtraction (`Vec3.sub`). -/
noncomputable def sub (a b : Vec3) : Vec3 := ⟨a.x - b.x, a.y - b.y, a.z - b.z⟩

/-- Scalar multiplication (`Vec3.mul`). -/
noncomputable def mul (a : Vec3) (c : ℝ) : Vec3 := ⟨a.x * c, a.y * c, a.z * c⟩

/-- Scalar division (`Vec3.div`). -/
noncomputable def div (a : Vec3) (c : ℝ) : Vec3 := ⟨a.x / c, a.y / c, a.z / c⟩

/-- Dot product (`Vec3.dot`). -/
noncomputable def dot (a b : Vec3) : ℝ := a.x * b.x + a.y * b.y + a.z * b.z

/-- Euclidean length (`Vec3.len`). -/
noncomputable def len (a : Vec3) : ℝ := Real.sqrt (a.dot a)

/-- Modelled from the spec: `Vec3.unit` is defined in the HTML harness file,
which is not part of the source tree.  Per the spec (§4.1) the unit direction
of the zero vector is the zero vector (degenerate spring case); otherwise it
is the vector divided by its length. -/
noncomputable def unit (v : Vec3) : Vec3 :=
  if v.len = 0 then ⟨0, 0, 0⟩ else v.div v.len

noncomputable instance : Add Vec3 := ⟨Vec3.add⟩
noncomputable instance : Sub Vec3 := ⟨Vec3.sub⟩
noncomputable instance : Neg Vec3 := ⟨fun v => ⟨-v.x, -v.y, -v.z⟩⟩
instance : Zero Vec3 := ⟨⟨0, 0, 0⟩⟩

@[simp] lemma add_x (a b : Vec3) : (a + b).x = a.x + b.x := rfl
@[simp] lemma add_y (a b : Vec3) : (a + b).y = a.y + b.y := rfl
@[simp] lemma add_z (a b : Vec3) : (a + b).z = a.z + b.z := rfl
@[simp] lemma sub_x (a b : Vec3) : (a - b).x = a.x - b.x := rfl
@[simp] lemma sub_y (a b : Vec3) : (a - b).y = a.y - b.y := rfl
@[simp] lemma sub_z (a b : Vec3) : (a - b).z = a.z - b.z := rfl
@[simp] lemma neg_x (a : Vec3) : (-a).x = -a.x := rfl
@[simp] lemma neg_y (a : Vec3) : (-a).y = -a.y := rfl
@[simp] lemma neg_z (a : Vec3) : (-a).z = -a.z := rfl
@[simp] lemma zero_x : (0 : Vec3).x = 0 := rfl
@[simp] lemma zero_y : (0 : Vec3).y = 0 := rfl
@[simp] lemma zero_z : (0 : Vec3).z = 0 := rfl
@[simp] lemma mul_x (a : Vec3) (c : ℝ) : (a.mul c).x = a.x * c := rfl
@[simp] lemma mul_y (a : Vec3) (c : ℝ) : (a.mul c).y = a.y * c := rfl
@[simp] lemma mul_z (a : Vec3) (c : ℝ) : (a.mul c).z = a.z * c := rfl
@[simp] lemma div_x (a : Vec3) (c : ℝ) : (a.div c).x = a.x / c := rfl
@[simp] lemma div_y (a : Vec3) (c : ℝ) : (a.div c).y = a.y / c := rfl
@[simp] lemma div_z (a : Vec3) (c : ℝ) : (a.div c).z = a.z / c := rfl

lemma add_def (a b : Vec3) : a.add b = a + b := rfl
lemma sub_def (a b : Vec3) : a.sub b = a - b := rfl

noncomputable instance : AddCommGroup Vec3 where
  add := (· + ·)
  zero := 0
  neg := Neg.neg
  sub := (· - ·)
  add_assoc a b c := by ext <;> simp <;> ring
  zero_add a := by ext <;> simp
  add_zero a := by ext <;> simp
  add_comm a b := by ext <;> simp <;> ring
  neg_add_cancel a := by ext <;> simp
  sub_eq_add_neg a b := by ext <;> simp <;> ring
  nsmul := nsmulRec
  zsmul := zsmulRec

lemma nsmul_def (n : ℕ) (v : Vec3) : n • v = v.mul n := by
  induction n with
  | zero => ext <;> simp
  | succ k ih => rw [succ_nsmul, ih]; ext <;> push_cast <;> simp <;> ring

/-- Scalar multiplication by a fixed scalar as an additive monoid hom. -/
noncomputable def mulAddHom (c : ℝ) : Vec3 →+ Vec3 where
  toFun v := v.mul c
  map_zero' := by ext <;> simp
  map_add' a b := by ext <;> simp <;> ring

@[simp] lemma mulAddHom_apply (c : ℝ) (v : Vec3) : mulAddHom c v = v.mul c := rfl

end Vec3

/-- A spring record: indices of its two endpoint particles and its rest
length (`spring.p0`, `spring.p1`, `spring.rest`). -/
structure Spring where
  p0 : ℕ
  p1 : ℕ
  rest : ℝ

/-- The total force contribution `f = fs + fd` of a single spring (Hooke
force plus along-spring damping), as computed in the spring loop of
`SimTimeStep`. -/
noncomputable def springForce (positions velocities : List Vec3)
    (stiffness damping : ℝ) (s : Spring) : Vec3 :=
  let pi := positions.getD s.p0 0
  let pj := positions.getD s.p1 0
  let vi := velocities.getD s.p0 0
  let vj := velocities.getD s.p1 0
  let d := pj.sub pi
  let L := d.len
  let dir := d.unit
  let fs := dir.mul (stiffness * (L - s.rest))
  let vRel := vj.sub vi
  let fd := dir.mul (damping * (vRel.dot dir))
  fs.add fd

/-- The change a single spring makes at slot `k` of the force buffer:
`forces[p0].inc(f)` followed by `forces[p1].dec(f)`. -/
noncomputable def springDelta (f : Vec3) (s : Spring) (k : ℕ) : Vec3 :=
  (if k = s.p0 then f else 0) - (if k = s.p1 then f else 0)

/-- One iteration of the spring loop: add the spring's contribution into the
force buffer. -/
noncomputable def applySpringForce (positions velocities : List Vec3)
    (stiffness damping : ℝ) (F : ℕ → Vec3) (s : Spring) : ℕ → Vec3 :=
  fun k => F k + springDelta (springForce positions velocities stiffness damping s) s k

/-- The force buffer after phase 1 (initialisation with
`gravity.mul(particleMass)`) and phase 2 (the spring loop). -/
noncomputable def forcesOf (positions velocities : List Vec3)
    (springs : List Spring) (stiffness damping particleMass : ℝ)
    (gravity : Vec3) : ℕ → Vec3 :=
  springs.foldl (applySpringForce positions velocities stiffness damping)
    (fun _ => gravity.mul particleMass)

/-- Phase 3 for particle `i`: semi-implicit Euler.  `acc = forces[i] / m`;
`velocities[i] += acc * dt`; `positions[i] += velocities[i] * dt`, the
position update reading the just-updated velocity.  Returns the integrated
(position, velocity) pair. -/
noncomputable def stepParticle (forces : ℕ → Vec3) (particleMass dt : ℝ)
    (positions velocities : List Vec3) (i : ℕ) : Vec3 × Vec3 :=
  let acc := (forces i).div particleMass
  let v := (velocities.getD i 0) + acc.mul dt
  let p := (positions.getD i 0) + v.mul dt
  (p, v)

/-- Phase 4 for one axis: the two sequential `if` statements of the collision
loop, first the `< -1` side, then the `> 1` side on the updated pair. -/
noncomputable def collideAxis (restitution p v : ℝ) : ℝ × ℝ :=
  let q : ℝ × ℝ :=
    if p < -1 then ((-1 : ℝ), if v < 0 then -v * restitution else v) else (p, v)
  if q.1 > 1 then ((1 : ℝ), if q.2 > 0 then -q.2 * restitution else q.2) else q

/-- Phase 4 for one particle: the axis rule applied independently to x, y, z. -/
noncomputable def collideParticle (restitution : ℝ) (p v : Vec3) : Vec3 × Vec3 :=
  let cx := collideAxis restitution p.x v.x
  let cy := collideAxis restitution p.y v.y
  let cz := collideAxis restitution p.z v.z
  (⟨cx.1, cy.1, cz.1⟩, ⟨cx.2, cy.2, cz.2⟩)

/-- The full step for particle `i`: integrate, then resolve collisions. -/
noncomputable def stepAndCollide (forces : ℕ → Vec3)
    (particleMass dt restitution : ℝ)
    (positions velocities : List Vec3) (i : ℕ) : Vec3 × Vec3 :=
  let pv := stepParticle forces particleMass dt positions velocities i
  collideParticle restitution pv.1 pv.2

/-- `SimTimeStep` from `project4.js`: force accumulation, semi-implicit Euler
integration, and bounding-box collision handling.  The mutated `positions`
and `velocities` arrays are returned as the two components of the result. -/
noncomputable def SimTimeStep (dt : ℝ) (positions velocities : List Vec3)
    (springs : List Spring) (stiffness damping particleMass : ℝ)
    (gravity : Vec3) (restitution : ℝ) : List Vec3 × List Vec3 :=
  let forces := forcesOf positions velocities springs stiffness damping
    particleMass gravity
  ((List.range positions.length).map fun i =>
      (stepAndCollide forces particleMass dt restitution positions velocities i).1,
   (List.range positions.length).map fun i =>
      (stepAndCollide forces particleMass dt restitution positions velocities i).2)

/-- The caller-visible state: particle positions, velocities, and the spring
records the step reads. -/
structure SimState where
  positions : List Vec3
  velocities : List Vec3
  springs : List Spring

/-- `SimTimeStep` acting on the whole caller-visible state: the body of the
source function writes the position and velocity arrays and contains no
assignment to any spring record. -/
noncomputable def SimTimeStepState (dt : ℝ) (st : SimState)
    (stiffness damping particleMass : ℝ) (gravity : Vec3)
    (restitution : ℝ) : SimState :=
  { positions := (SimTimeStep dt st.positions st.velocities st.springs
      stiffness damping particleMass gravity restitution).1,
    velocities := (SimTimeStep dt st.positions st.velocities st.springs
      stiffness damping particleMass gravity restitution).2,
    springs := st.springs }

/-- Membership of every coordinate in the closed interval [-1, 1]. -/
def inBox (v : Vec3) : Prop :=
  -1 ≤ v.x ∧ v.x ≤ 1 ∧ -1 ≤ v.y ∧ v.y ≤ 1 ∧ -1 ≤ v.z ∧ v.z ≤ 1

lemma forces_foldl_apply (ps vs : List Vec3) (st dm : ℝ) (springs : List Spring)
    (F0 : ℕ → Vec3) (k : ℕ) :
    springs.foldl (applySpringForce ps vs st dm) F0 k
      = F0 k + (springs.map fun s => springDelta (springForce ps vs st dm s) s k).sum := by
  induction springs generalizing F0 with
  | nil => simp
  | cons s rest ih =>
      rw [List.foldl_cons, ih]
      simp [applySpringForce, add_assoc]

lemma forcesOf_apply (ps vs : List Vec3) (springs : List Spring)
    (st dm m : ℝ) (g : Vec3) (k : ℕ) :
    forcesOf ps vs springs st dm m g k
      = g.mul m + (springs.map fun s => springDelta (springForce ps vs st dm s) s k).sum := by
  unfold forcesOf
  exact forces_foldl_apply ps vs st dm springs _ k

lemma sum_springDelta (f : Vec3) (s : Spring) {n : ℕ}
    (h0 : s.p0 < n) (h1 : s.p1 < n) :
    (Finset.range n).sum (fun k => springDelta f s k) = 0 := by
  simp only [springDelta]
  rw [Finset.sum_sub_distrib]
  rw [Finset.sum_ite_eq' (Finset.range n) s.p0 (fun _ => f)]
  rw [Finset.sum_ite_eq' (Finset.range n) s.p1 (fun _ => f)]
  simp [Finset.mem_range, h0, h1]

lemma getD_range_map {α : Type} (f : ℕ → α) (d : α) {n i : ℕ} (h : i < n) :
    ((List.range n).map f).getD i d = f i := by
  simp [List.getD_eq_getElem?_getD, List.getElem?_map, List.getElem?_range, h]

lemma collideAxis_eq (r p v : ℝ) :
    collideAxis r p v =
      if p < -1 then ((-1 : ℝ), if v < 0 then -v * r else v)
      else if p > 1 then ((1 : ℝ), if v > 0 then -v * r else v)
      else (p, v) := by
  unfold collideAxis
  by_cases h1 : p < -1
  · have hn : ¬((-1 : ℝ) > 1) := by norm_num
    simp [h1, hn]
  · by_cases h2 : p > 1
    · simp [h1, h2]
    · simp [h1, h2]

lemma collideAxis_fst_mem (r p v : ℝ) :
    -1 ≤ (collideAxis r p v).1 ∧ (collideAxis r p v).1 ≤ 1 := by
  rw [collideAxis_eq]
  split_ifs with h1 h2 <;> constructor <;> simp <;> linarith

lemma collideAxis_of_mem (r p v : ℝ) (h1 : -1 ≤ p) (h2 : p ≤ 1) :
    collideAxis r p v = (p, v) := by
  rw [collideAxis_eq, if_neg (by linarith), if_neg (by linarith)]

lemma collideParticle_of_inBox (r : ℝ) (p v : Vec3) (h : inBox p) :
    collideParticle r p v = (p, v) := by
  obtain ⟨h1, h2, h3, h4, h5, h6⟩ := h
  unfold collideParticle
  rw [collideAxis_of_mem r p.x v.x h1 h2, collideAxis_of_mem r p.y v.y h3 h4,
    collideAxis_of_mem r p.z v.z h5 h6]

lemma SimTimeStep_fst (dt : ℝ) (ps vs : List Vec3) (springs : List Spring)
    (st dm m : ℝ) (g : Vec3) (r : ℝ) :
    (SimTimeStep dt ps vs springs st dm m g r).1
      = (List.range ps.length).map (fun i =>
          (stepAndCollide (forcesOf ps vs springs st dm m g) m dt r ps vs i).1) := rfl

lemma SimTimeStep_snd (dt : ℝ) (ps vs : List Vec3) (springs : List Spring)
    (st dm m : ℝ) (g : Vec3) (r : ℝ) :
    (SimTimeStep dt ps vs springs st dm m g r).2
      = (List.range ps.length).map (fun i =>
          (stepAndCollide (forcesOf ps vs springs st dm m g) m dt r ps vs i).2) := rfl

lemma SimTimeStep_fst_getD (dt : ℝ) (ps vs : List Vec3) (springs : List Spring)
    (st dm m : ℝ) (g : Vec3) (r : ℝ) {i : ℕ} (h : i < ps.length) :
    (SimTimeStep dt ps vs springs st dm m g r).1.getD i 0
      = (stepAndCollide (forcesOf ps vs springs st dm m g) m dt r ps vs i).1 := by
  rw [SimTimeStep_fst, getD_range_map _ _ h]

lemma SimTimeStep_snd_getD (dt : ℝ) (ps vs : List Vec3) (springs : List Spring)
    (st dm m : ℝ) (g : Vec3) (r : ℝ) {i : ℕ} (h : i < ps.length) :
    (SimTimeStep dt ps vs springs st dm m g r).2.getD i 0
      = (stepAndCollide (forcesOf ps vs springs st dm m g) m dt r ps vs i).2 := by
  rw [SimTimeStep_snd, getD_range_map _ _ h]

lemma springForce_example :
    springForce [⟨0, 0, 0⟩, ⟨1, 0, 0⟩] [⟨0, 0, 0⟩, ⟨0, 0, 0⟩] 1 0 ⟨0, 1, 2⟩
      = ⟨-1, 0, 0⟩ := by
  unfold springForce
  norm_num [Vec3.sub, Vec3.len, Vec3.dot, Vec3.unit, Vec3.div, Vec3.mul,
    Vec3.add, List.getD, Real.sqrt_one]

/-- C1 counterexample: in the two-particle scene with one spring `(p0 = 0,
p1 = 1, rest 2)`, the accumulated force at particle `p1 = 1` is NOT the
initial accumulator plus the spring contribution `f` (it is the accumulator
minus `f`): the code adds `f` at `p0` and subtracts it at `p1`, not the other
way round as the claim states. -/
theorem spring_force_application_counterexample :
    forcesOf [⟨0, 0, 0⟩, ⟨1, 0, 0⟩] [⟨0, 0, 0⟩, ⟨0, 0, 0⟩] [⟨0, 1, 2⟩] 1 0 1 ⟨0, 0, 0⟩ 1
      ≠ Vec3.mul ⟨0, 0, 0⟩ 1
          + springForce [⟨0, 0, 0⟩, ⟨1, 0, 0⟩] [⟨0, 0, 0⟩, ⟨0, 0, 0⟩] 1 0 ⟨0, 1, 2⟩ := by
  have hL : forcesOf [⟨0, 0, 0⟩, ⟨1, 0, 0⟩] [⟨0, 0, 0⟩, ⟨0, 0, 0⟩]
      [⟨0, 1, 2⟩] 1 0 1 ⟨0, 0, 0⟩ 1 = ⟨1, 0, 0⟩ := by
    rw [forcesOf_apply, List.map_cons, List.map_nil, springForce_example]
    ext <;> simp [springDelta, Vec3.mul]
  have hR : Vec3.mul ⟨0, 0, 0⟩ 1
      + springForce [⟨0, 0, 0⟩, ⟨1, 0, 0⟩] [⟨0, 0, 0⟩, ⟨0, 0, 0⟩] 1 0 ⟨0, 1, 2⟩
      = ⟨-1, 0, 0⟩ := by
    rw [springForce_example]
    ext <;> simp [Vec3.mul]
  rw [hL, hR]
  intro hc
  have hx := congrArg Vec3.x hc
  norm_num at hx

/-- C1 (amended): for every spring processed in the force-accumulation loop
with distinct endpoints, the total spring contribution `f = fs + fd` is added
to particle `p0`'s force accumulator and subtracted from particle `p1`'s
force accumulator (equal and opposite). -/
theorem spring_force_application (ps vs : List Vec3) (st dm : ℝ)
    (F : ℕ → Vec3) (s : Spring) (h : s.p0 ≠ s.p1) :
    applySpringForce ps vs st dm F s s.p0
        = F s.p0 + springForce ps vs st dm s
      ∧ applySpringForce ps vs st dm F s s.p1
        = F s.p1 - springForce ps vs st dm s := by
  constructor
  · unfold applySpringForce springDelta
    rw [if_pos rfl, if_neg h]
    abel
  · unfold applySpringForce springDelta
    rw [if_neg (Ne.symm h), if_pos rfl]
    abel

/-- Witness for C1's amended theorem at the concrete two-particle spring. -/
theorem spring_force_application_witness :
    ((⟨0, 1, 2⟩ : Spring).p0 ≠ (⟨0, 1, 2⟩ : Spring).p1)
      ∧ (applySpringForce [⟨0, 0, 0⟩, ⟨1, 0, 0⟩] [⟨0, 0, 0⟩, ⟨0, 0, 0⟩] 1 0
            (fun _ => 0) ⟨0, 1, 2⟩ (⟨0, 1, 2⟩ : Spring).p0
          = (fun _ => (0 : Vec3)) (⟨0, 1, 2⟩ : Spring).p0
              + springForce [⟨0, 0, 0⟩, ⟨1, 0, 0⟩] [⟨0, 0, 0⟩, ⟨0, 0, 0⟩] 1 0 ⟨0, 1, 2⟩
        ∧ applySpringForce [⟨0, 0, 0⟩, ⟨1, 0, 0⟩] [⟨0, 0, 0⟩, ⟨0, 0, 0⟩] 1 0
            (fun _ => 0) ⟨0, 1, 2⟩ (⟨0, 1, 2⟩ : Spring).p1
          = (fun _ => (0 : Vec3)) (⟨0, 1, 2⟩ : Spring).p1
              - springForce [⟨0, 0, 0⟩, ⟨1, 0, 0⟩] [⟨0, 0, 0⟩, ⟨0, 0, 0⟩] 1 0 ⟨0, 1, 2⟩) :=
  ⟨by decide,
   spring_force_application [⟨0, 0, 0⟩, ⟨1, 0, 0⟩] [⟨0, 0, 0⟩, ⟨0, 0, 0⟩] 1 0
     (fun _ => 0) ⟨0, 1, 2⟩ (by decide)⟩

/-- C2: after every call to `SimTimeStep`, every coordinate of every output
particle position lies within the closed cube [-1, 1]^3. -/
theorem positions_in_box (dt : ℝ) (ps vs : List Vec3) (springs : List Spring)
    (st dm m : ℝ) (g : Vec3) (r : ℝ) :
    ∀ q ∈ (SimTimeStep dt ps vs springs st dm m g r).1, inBox q := by
  intro q hq
  rw [SimTimeStep_fst] at hq
  simp only [List.mem_map] at hq
  obtain ⟨i, _, rfl⟩ := hq
  simp only [stepAndCollide, collideParticle, inBox]
  refine ⟨?_, ?_, ?_, ?_, ?_, ?_⟩ <;>
    first
      | exact (collideAxis_fst_mem _ _ _).1
      | exact (collideAxis_fst_mem _ _ _).2

/-- Witness for C2: a particle integrated to z = 5 is clamped into the box. -/
theorem positions_in_box_witness :
    (⟨0, 0, 1⟩ : Vec3) ∈ (SimTimeStep 1 [⟨0, 0, 5⟩] [⟨0, 0, 0⟩] [] 0 0 1 ⟨0, 0, 0⟩ 0).1
      ∧ inBox ⟨0, 0, 1⟩ := by
  have hev : (SimTimeStep 1 [⟨0, 0, 5⟩] [⟨0, 0, 0⟩] [] 0 0 1 ⟨0, 0, 0⟩ 0).1
      = [⟨0, 0, 1⟩] := by
    simp only [SimTimeStep, forcesOf, List.foldl_nil, List.length_cons, List.length_nil,
      List.range_succ, List.range_zero, List.nil_append, List.map_cons, List.map_nil,
      stepAndCollide, stepParticle, collideParticle, collideAxis_eq, List.getD_cons_zero]
    norm_num [Vec3.mul, Vec3.div, Vec3.add]
  have hmem : (⟨0, 0, 1⟩ : Vec3) ∈ (SimTimeStep 1 [⟨0, 0, 5⟩] [⟨0, 0, 0⟩] [] 0 0 1 ⟨0, 0, 0⟩ 0).1 := by
    rw [hev]; exact List.mem_singleton.mpr rfl
  exact ⟨hmem, positions_in_box 1 [⟨0, 0, 5⟩] [⟨0, 0, 0⟩] [] 0 0 1 ⟨0, 0, 0⟩ 0 ⟨0, 0, 1⟩ hmem⟩

/-- C3: `SimTimeStep` is a semi-implicit Euler integrator: for a particle
whose integrated position stays inside the box, the output velocity is
`velocity + (force / particleMass) * dt`, and the output position is
`position + velocity_new * dt`, i.e. the position update reads the
already-updated velocity. -/
theorem semi_implicit_euler (dt st dm m r : ℝ) (ps vs : List Vec3)
    (springs : List Spring) (g : Vec3) (i : ℕ) (hi : i < ps.length)
    (hnc : inBox (stepParticle (forcesOf ps vs springs st dm m g) m dt ps vs i).1) :
    (SimTimeStep dt ps vs springs st dm m g r).2.getD i 0
        = vs.getD i 0 + ((forcesOf ps vs springs st dm m g i).div m).mul dt
      ∧ (SimTimeStep dt ps vs springs st dm m g r).1.getD i 0
        = ps.getD i 0
            + ((SimTimeStep dt ps vs springs st dm m g r).2.getD i 0).mul dt := by
  have h2 : (SimTimeStep dt ps vs springs st dm m g r).2.getD i 0
      = (stepParticle (forcesOf ps vs springs st dm m g) m dt ps vs i).2 := by
    rw [SimTimeStep_snd_getD dt ps vs springs st dm m g r hi]
    simp only [stepAndCollide]
    rw [collideParticle_of_inBox _ _ _ hnc]
  have h1 : (SimTimeStep dt ps vs springs st dm m g r).1.getD i 0
      = (stepParticle (forcesOf ps vs springs st dm m g) m dt ps vs i).1 := by
    rw [SimTimeStep_fst_getD dt ps vs springs st dm m g r hi]
    simp only [stepAndCollide]
    rw [collideParticle_of_inBox _ _ _ hnc]
  refine ⟨?_, ?_⟩
  · rw [h2]; rfl
  · rw [h1, h2]; rfl

/-- Witness for C3: the spec's integration-order scenario.  A single free
particle at (0,0,0.5), velocity 0, gravity (0,0,-1), mass 1, dt = 0.1 ends
the step with velocity.z = -0.1 and position.z = 0.49. -/
theorem semi_implicit_euler_witness :
    (0 < ([⟨0, 0, (1 : ℝ)/2⟩] : List Vec3).length)
    ∧ inBox (stepParticle (forcesOf [⟨0, 0, 1/2⟩] [⟨0, 0, 0⟩] [] 0 0 1 ⟨0, 0, -1⟩)
        1 (1/10) [⟨0, 0, 1/2⟩] [⟨0, 0, 0⟩] 0).1
    ∧ ((SimTimeStep (1/10) [⟨0, 0, 1/2⟩] [⟨0, 0, 0⟩] [] 0 0 1 ⟨0, 0, -1⟩ 0).2.getD 0 0
        = ([⟨0, 0, 0⟩] : List Vec3).getD 0 0
            + ((forcesOf [⟨0, 0, 1/2⟩] [⟨0, 0, 0⟩] [] 0 0 1 ⟨0, 0, -1⟩ 0).div 1).mul (1/10)
      ∧ (SimTimeStep (1/10) [⟨0, 0, 1/2⟩] [⟨0, 0, 0⟩] [] 0 0 1 ⟨0, 0, -1⟩ 0).1.getD 0 0
        = ([⟨0, 0, 1/2⟩] : List Vec3).getD 0 0
            + ((SimTimeStep (1/10) [⟨0, 0, 1/2⟩] [⟨0, 0, 0⟩] [] 0 0 1 ⟨0, 0, -1⟩ 0).2.getD 0 0).mul (1/10))
    ∧ (SimTimeStep (1/10) [⟨0, 0, 1/2⟩] [⟨0, 0, 0⟩] [] 0 0 1 ⟨0, 0, -1⟩ 0).2.getD 0 0
        = ⟨0, 0, -(1/10)⟩
    ∧ (SimTimeStep (1/10) [⟨0, 0, 1/2⟩] [⟨0, 0, 0⟩] [] 0 0 1 ⟨0, 0, -1⟩ 0).1.getD 0 0
        = ⟨0, 0, 49/100⟩ := by
  have hi : 0 < ([⟨0, 0, (1 : ℝ)/2⟩] : List Vec3).length := by norm_num
  have hnc : inBox (stepParticle (forcesOf [⟨0, 0, 1/2⟩] [⟨0, 0, 0⟩] [] 0 0 1 ⟨0, 0, -1⟩)
      1 (1/10) [⟨0, 0, 1/2⟩] [⟨0, 0, 0⟩] 0).1 := by
    simp only [stepParticle, forcesOf, List.foldl_nil, List.getD_cons_zero, inBox]
    norm_num [Vec3.mul, Vec3.div, Vec3.add]
  have hev : (SimTimeStep (1/10) [⟨0, 0, 1/2⟩] [⟨0, 0, 0⟩] [] 0 0 1 ⟨0, 0, -1⟩ 0)
      = ([⟨0, 0, 49/100⟩], [⟨0, 0, -(1/10)⟩]) := by
    simp only [SimTimeStep, forcesOf, List.foldl_nil, List.length_cons, List.length_nil,
      List.range_succ, List.range_zero, List.nil_append, List.map_cons, List.map_nil,
      stepAndCollide, stepParticle, collideParticle, collideAxis_eq, List.getD_cons_zero]
    norm_num [Vec3.mul, Vec3.div, Vec3.add]
  refine ⟨hi, hnc,
    semi_implicit_euler (1/10) 0 0 1 0 [⟨0, 0, 1/2⟩] [⟨0, 0, 0⟩] [] ⟨0, 0, -1⟩ 0 hi hnc,
    ?_, ?_⟩
  · rw [hev]; rfl
  · rw [hev]; rfl

lemma sum_range_listsum (n : ℕ) (L : List Spring) (d : Spring → ℕ → Vec3)
    (h : ∀ s ∈ L, (Finset.range n).sum (d s) = 0) :
    (Finset.range n).sum (fun i => (L.map fun s => d s i).sum) = 0 := by
  induction L with
  | nil => simp
  | cons s rest ih =>
      simp only [List.map_cons, List.sum_cons]
      rw [Finset.sum_add_distrib, h s (List.mem_cons_self s rest),
        ih (fun t ht => h t (List.mem_cons_of_mem s ht))]
      simp

lemma sum_forcesOf (ps vs : List Vec3) (springs : List Spring)
    (st dm m : ℝ) (g : Vec3)
    (hs : ∀ s ∈ springs, s.p0 < ps.length ∧ s.p1 < ps.length) :
    (Finset.range ps.length).sum (fun i => forcesOf ps vs springs st dm m g i)
      = (ps.length : ℕ) • g.mul m := by
  have hpt : ∀ i, forcesOf ps vs springs st dm m g i
      = g.mul m + (springs.map fun s => springDelta (springForce ps vs st dm s) s i).sum :=
    fun i => forcesOf_apply ps vs springs st dm m g i
  rw [Finset.sum_congr rfl (fun i _ => hpt i), Finset.sum_add_distrib,
    sum_range_listsum ps.length springs _
      (fun s hsm => sum_springDelta _ s (hs s hsm).1 (hs s hsm).2)]
  simp [Finset.sum_const, Finset.card_range]

/-- C4: every spring's force contribution sums to zero over all particles
(equal-and-opposite application), and with no boundary contact the total
momentum change over the step equals total mass (`n * particleMass`) times
gravity times `dt`; in particular with zero gravity total momentum is
unchanged. -/
theorem momentum_conservation (dt st dm m r : ℝ) (ps vs : List Vec3)
    (springs : List Spring) (g : Vec3) (hm : m ≠ 0)
    (hs : ∀ s ∈ springs, s.p0 < ps.length ∧ s.p1 < ps.length)
    (hnc : ∀ i < ps.length,
      inBox (stepParticle (forcesOf ps vs springs st dm m g) m dt ps vs i).1) :
    (∀ s ∈ springs, (Finset.range ps.length).sum
        (fun k => springDelta (springForce ps vs st dm s) s k) = 0)
    ∧ (Finset.range ps.length).sum
        (fun i => ((SimTimeStep dt ps vs springs st dm m g r).2.getD i 0).mul m)
      = (Finset.range ps.length).sum (fun i => (vs.getD i 0).mul m)
        + g.mul ((ps.length : ℝ) * m * dt) := by
  constructor
  · intro s hsm
    exact sum_springDelta _ s (hs s hsm).1 (hs s hsm).2
  · have hv : ∀ i ∈ Finset.range ps.length,
        ((SimTimeStep dt ps vs springs st dm m g r).2.getD i 0).mul m
          = (vs.getD i 0).mul m
            + ((forcesOf ps vs springs st dm m g i).mul dt) := by
      intro i hi
      rw [Finset.mem_range] at hi
      rw [SimTimeStep_snd_getD dt ps vs springs st dm m g r hi]
      simp only [stepAndCollide]
      rw [collideParticle_of_inBox _ _ _ (hnc i hi)]
      show ((vs.getD i 0)
          + ((forcesOf ps vs springs st dm m g i).div m).mul dt).mul m = _
      ext <;> simp <;> field_simp <;> ring
    rw [Finset.sum_congr rfl hv, Finset.sum_add_distrib]
    congr 1
    have hmap : (Finset.range ps.length).sum
        (fun i => (forcesOf ps vs springs st dm m g i).mul dt)
          = Vec3.mulAddHom dt ((Finset.range ps.length).sum
              (fun i => forcesOf ps vs springs st dm m g i)) := by
      rw [map_sum]
      simp
    rw [hmap, sum_forcesOf ps vs springs st dm m g hs, map_nsmul,
      Vec3.nsmul_def]
    ext <;> simp <;> ring

/-- Witness for C4 on a concrete one-particle, zero-spring scene. -/
theorem momentum_conservation_witness :
    ((1 : ℝ) ≠ 0)
    ∧ (∀ s ∈ ([] : List Spring),
        s.p0 < ([⟨0, 0, 0⟩] : List Vec3).length ∧ s.p1 < ([⟨0, 0, 0⟩] : List Vec3).length)
    ∧ (∀ i < ([⟨0, 0, 0⟩] : List Vec3).length,
        inBox (stepParticle (forcesOf [⟨0, 0, 0⟩] [⟨0, 0, 0⟩] [] 0 0 1 ⟨0, 0, 0⟩)
          1 1 [⟨0, 0, 0⟩] [⟨0, 0, 0⟩] i).1)
    ∧ ((∀ s ∈ ([] : List Spring), (Finset.range ([⟨0, 0, 0⟩] : List Vec3).length).sum
          (fun k => springDelta (springForce [⟨0, 0, 0⟩] [⟨0, 0, 0⟩] 0 0 s) s k) = 0)
      ∧ (Finset.range ([⟨0, 0, 0⟩] : List Vec3).length).sum
          (fun i => ((SimTimeStep 1 [⟨0, 0, 0⟩] [⟨0, 0, 0⟩] [] 0 0 1 ⟨0, 0, 0⟩ 0).2.getD i 0).mul 1)
        = (Finset.range ([⟨0, 0, 0⟩] : List Vec3).length).sum
            (fun i => (([⟨0, 0, 0⟩] : List Vec3).getD i 0).mul 1)
          + Vec3.mul ⟨0, 0, 0⟩ ((([⟨0, 0, 0⟩] : List Vec3).length : ℝ) * 1 * 1)) := by
  have h1 : (1 : ℝ) ≠ 0 := one_ne_zero
  have h2 : ∀ s ∈ ([] : List Spring),
      s.p0 < ([⟨0, 0, 0⟩] : List Vec3).length ∧ s.p1 < ([⟨0, 0, 0⟩] : List Vec3).length := by
    intro s hsm; cases hsm
  have h3 : ∀ i < ([⟨0, 0, 0⟩] : List Vec3).length,
      inBox (stepParticle (forcesOf [⟨0, 0, 0⟩] [⟨0, 0, 0⟩] [] 0 0 1 ⟨0, 0, 0⟩)
        1 1 [⟨0, 0, 0⟩] [⟨0, 0, 0⟩] i).1 := by
    intro i hi
    have hi0 : i = 0 := by
      simp only [List.length_cons, List.length_nil] at hi; omega
    subst hi0
    simp only [stepParticle, forcesOf, List.foldl_nil, List.getD_cons_zero, inBox]
    norm_num [Vec3.mul, Vec3.div, Vec3.add]
  exact ⟨h1, h2, h3,
    momentum_conservation 1 0 0 1 0 [⟨0, 0, 0⟩] [⟨0, 0, 0⟩] [] ⟨0, 0, 0⟩ h1 h2 h3⟩

/-- C5: the per-axis collision rule.  A coordinate below -1 is clamped to
exactly -1 and the velocity is reflected to `-v * restitution` only when it
is negative, otherwise left unchanged; symmetrically above +1; a coordinate
already in [-1, 1] is untouched.  Concretely, a free particle with
position.z = 0.95, velocity.z = 1, gravity 0, dt = 0.1 ends the step with
position.z = 1 and velocity.z = `-restitution`. -/
theorem collision_rule (r st dm : ℝ) :
    (∀ p v : ℝ,
      (p < -1 → (collideAxis r p v).1 = -1
        ∧ (v < 0 → (collideAxis r p v).2 = -v * r)
        ∧ (0 ≤ v → (collideAxis r p v).2 = v))
      ∧ (p > 1 → (collideAxis r p v).1 = 1
        ∧ (v > 0 → (collideAxis r p v).2 = -v * r)
        ∧ (v ≤ 0 → (collideAxis r p v).2 = v))
      ∧ (-1 ≤ p → p ≤ 1 → collideAxis r p v = (p, v)))
    ∧ SimTimeStep (1/10) [⟨0, 0, 19/20⟩] [⟨0, 0, 1⟩] [] st dm 1 ⟨0, 0, 0⟩ r
        = ([⟨0, 0, 1⟩], [⟨0, 0, -r⟩]) := by
  constructor
  · intro p v
    refine ⟨?_, ?_, fun hl hu => collideAxis_of_mem r p v hl hu⟩
    · intro hp
      rw [collideAxis_eq, if_pos hp]
      refine ⟨rfl, fun hv => ?_, fun hv => ?_⟩
      · simp [hv]
      · simp [not_lt.mpr hv]
    · intro hp
      rw [collideAxis_eq, if_neg (by linarith), if_pos hp]
      refine ⟨rfl, fun hv => ?_, fun hv => ?_⟩
      · simp [hv]
      · simp [not_lt.mpr hv]
  · simp only [SimTimeStep, forcesOf, List.foldl_nil, List.length_cons, List.length_nil,
      List.range_succ, List.range_zero, List.nil_append, List.map_cons, List.map_nil,
      stepAndCollide, stepParticle, collideParticle, collideAxis_eq, List.getD_cons_zero]
    norm_num [Vec3.mul, Vec3.div, Vec3.add]

/-- Witness for C5: restitution 1/2, a lower-wall crossing with inward and
outward velocities, plus the concrete upper-wall scenario. -/
theorem collision_rule_witness :
    ((-2 : ℝ) < -1)
    ∧ (collideAxis (1/2) (-2) (-3)).1 = -1
    ∧ ((-3 : ℝ) < 0)
    ∧ (collideAxis (1/2) (-2) (-3)).2 = -(-3) * (1/2)
    ∧ SimTimeStep (1/10) [⟨0, 0, 19/20⟩] [⟨0, 0, 1⟩] [] 0 0 1 ⟨0, 0, 0⟩ (1/2)
        = ([⟨0, 0, 1⟩], [⟨0, 0, -(1/2)⟩]) := by
  have hp : (-2 : ℝ) < -1 := by norm_num
  have hv : (-3 : ℝ) < 0 := by norm_num
  have hmain := collision_rule (1/2) 0 0
  have hax := (hmain.1 (-2) (-3)).1 hp
  exact ⟨hp, hax.1, hv, hax.2.1 hv, hmain.2⟩

/-- C6: a spring whose two endpoints coincide contributes exactly zero
force, and the step's result is as if that spring were absent from the
spring list. -/
theorem degenerate_spring (dt st dm m r : ℝ) (ps vs : List Vec3)
    (pre post : List Spring) (g : Vec3) (s : Spring)
    (hco : ps.getD s.p0 0 = ps.getD s.p1 0) :
    springForce ps vs st dm s = 0
    ∧ SimTimeStep dt ps vs (pre ++ s :: post) st dm m g r
      = SimTimeStep dt ps vs (pre ++ post) st dm m g r := by
  have hf : springForce ps vs st dm s = 0 := by
    unfold springForce
    rw [hco]
    ext <;> simp [Vec3.sub, Vec3.len, Vec3.dot, Vec3.unit, Vec3.div, Vec3.mul, Vec3.add]
  refine ⟨hf, ?_⟩
  have hap : ∀ F : ℕ → Vec3, applySpringForce ps vs st dm F s = F := by
    intro F
    funext k
    simp [applySpringForce, hf, springDelta]
  have hforces : forcesOf ps vs (pre ++ s :: post) st dm m g
      = forcesOf ps vs (pre ++ post) st dm m g := by
    unfold forcesOf
    rw [List.foldl_append, List.foldl_append, List.foldl_cons, hap]
  simp only [SimTimeStep, hforces]

/-- Witness for C6: two particles at the same point joined by a spring. -/
theorem degenerate_spring_witness :
    (([⟨1/2, 0, 0⟩, ⟨1/2, 0, 0⟩] : List Vec3).getD (⟨0, 1, 1⟩ : Spring).p0 0
        = ([⟨1/2, 0, 0⟩, ⟨1/2, 0, 0⟩] : List Vec3).getD (⟨0, 1, 1⟩ : Spring).p1 0)
    ∧ (springForce [⟨1/2, 0, 0⟩, ⟨1/2, 0, 0⟩] [⟨0, 0, 0⟩, ⟨0, 0, 0⟩] 1 1 ⟨0, 1, 1⟩ = 0
      ∧ SimTimeStep 1 [⟨1/2, 0, 0⟩, ⟨1/2, 0, 0⟩] [⟨0, 0, 0⟩, ⟨0, 0, 0⟩]
          ([] ++ (⟨0, 1, 1⟩ : Spring) :: []) 1 1 1 ⟨0, 0, 0⟩ 0
        = SimTimeStep 1 [⟨1/2, 0, 0⟩, ⟨1/2, 0, 0⟩] [⟨0, 0, 0⟩, ⟨0, 0, 0⟩]
          ([] ++ []) 1 1 1 ⟨0, 0, 0⟩ 0) := by
  have hco : ([⟨1/2, 0, 0⟩, ⟨1/2, 0, 0⟩] : List Vec3).getD (⟨0, 1, 1⟩ : Spring).p0 0
      = ([⟨1/2, 0, 0⟩, ⟨1/2, 0, 0⟩] : List Vec3).getD (⟨0, 1, 1⟩ : Spring).p1 0 := rfl
  exact ⟨hco, degenerate_spring 1 1 1 1 0 [⟨1/2, 0, 0⟩, ⟨1/2, 0, 0⟩]
    [⟨0, 0, 0⟩, ⟨0, 0, 0⟩] [] [] ⟨0, 0, 0⟩ ⟨0, 1, 1⟩ hco⟩

lemma forcesOf_two_particle_0 :
    forcesOf [⟨0, 0, 0⟩, ⟨1, 0, 0⟩] [⟨0, 0, 0⟩, ⟨0, 0, 0⟩] [⟨0, 1, 2⟩] 1 0 1 ⟨0, 0, 0⟩ 0
      = ⟨-1, 0, 0⟩ := by
  rw [forcesOf_apply, List.map_cons, List.map_nil, springForce_example]
  ext <;> simp [springDelta, Vec3.mul]

lemma forcesOf_two_particle_1 :
    forcesOf [⟨0, 0, 0⟩, ⟨1, 0, 0⟩] [⟨0, 0, 0⟩, ⟨0, 0, 0⟩] [⟨0, 1, 2⟩] 1 0 1 ⟨0, 0, 0⟩ 1
      = ⟨1, 0, 0⟩ := by
  rw [forcesOf_apply, List.map_cons, List.map_nil, springForce_example]
  ext <;> simp [springDelta, Vec3.mul]

lemma stepParticle_two_particle_0 (dt : ℝ) :
    stepParticle (forcesOf [⟨0, 0, 0⟩, ⟨1, 0, 0⟩] [⟨0, 0, 0⟩, ⟨0, 0, 0⟩] [⟨0, 1, 2⟩]
        1 0 1 ⟨0, 0, 0⟩) 1 dt [⟨0, 0, 0⟩, ⟨1, 0, 0⟩] [⟨0, 0, 0⟩, ⟨0, 0, 0⟩] 0
      = (⟨-(dt * dt), 0, 0⟩, ⟨-dt, 0, 0⟩) := by
  simp only [stepParticle, forcesOf_two_particle_0, List.getD_cons_zero]
  rw [Prod.mk.injEq]
  constructor <;> ext <;> simp [Vec3.mul, Vec3.div, Vec3.add] <;> ring

lemma stepParticle_two_particle_1 (dt : ℝ) :
    stepParticle (forcesOf [⟨0, 0, 0⟩, ⟨1, 0, 0⟩] [⟨0, 0, 0⟩, ⟨0, 0, 0⟩] [⟨0, 1, 2⟩]
        1 0 1 ⟨0, 0, 0⟩) 1 dt [⟨0, 0, 0⟩, ⟨1, 0, 0⟩] [⟨0, 0, 0⟩, ⟨0, 0, 0⟩] 1
      = (⟨1 + dt * dt, 0, 0⟩, ⟨dt, 0, 0⟩) := by
  simp only [stepParticle, forcesOf_two_particle_1, List.getD_cons_succ, List.getD_cons_zero]
  rw [Prod.mk.injEq]
  constructor <;> ext <;> simp [Vec3.mul, Vec3.div, Vec3.add] <;> ring

/-- C7 counterexample: in the two-particle scenario (particles at origin and
(1,0,0), spring rest length 2, stiffness 1, damping 0, mass 1, gravity 0,
dt = 0.1, restitution 1), particle p1's x-velocity after the step is NOT
positive: p1 starts exactly on the +x wall, is pushed outward, and the
collision phase reflects its velocity to `-dt * restitution`. -/
theorem two_particle_spring_counterexample :
    ¬ (0 < ((SimTimeStep (1/10) [⟨0, 0, 0⟩, ⟨1, 0, 0⟩] [⟨0, 0, 0⟩, ⟨0, 0, 0⟩]
        [⟨0, 1, 2⟩] 1 0 1 ⟨0, 0, 0⟩ 1).2.getD 1 0).x) := by
  rw [SimTimeStep_snd_getD _ _ _ _ _ _ _ _ _ (by norm_num)]
  simp only [stepAndCollide, stepParticle_two_particle_1]
  simp only [collideParticle, collideAxis_eq]
  norm_num

/-- C7 (amended): in the two-particle scenario with `0 < dt ≤ 1` and
`restitution ≥ 0`, the compressed spring pushes the pair apart: p0's final
x-velocity is negative and p1's integrated (pre-collision) x-velocity is
positive; but because p1 starts on the +x boundary, the collision phase
reflects it, leaving p1's final x-velocity `-(dt * restitution) ≤ 0`. -/
theorem two_particle_spring (dt r : ℝ) (h1 : 0 < dt) (h2 : dt ≤ 1) (h3 : 0 ≤ r) :
    ((SimTimeStep dt [⟨0, 0, 0⟩, ⟨1, 0, 0⟩] [⟨0, 0, 0⟩, ⟨0, 0, 0⟩] [⟨0, 1, 2⟩]
        1 0 1 ⟨0, 0, 0⟩ r).2.getD 0 0).x < 0
    ∧ 0 < (stepParticle (forcesOf [⟨0, 0, 0⟩, ⟨1, 0, 0⟩] [⟨0, 0, 0⟩, ⟨0, 0, 0⟩]
        [⟨0, 1, 2⟩] 1 0 1 ⟨0, 0, 0⟩) 1 dt [⟨0, 0, 0⟩, ⟨1, 0, 0⟩] [⟨0, 0, 0⟩, ⟨0, 0, 0⟩] 1).2.x
    ∧ ((SimTimeStep dt [⟨0, 0, 0⟩, ⟨1, 0, 0⟩] [⟨0, 0, 0⟩, ⟨0, 0, 0⟩] [⟨0, 1, 2⟩]
        1 0 1 ⟨0, 0, 0⟩ r).2.getD 1 0).x = -(dt * r) := by
  have hdd0 : 0 < dt * dt := mul_pos h1 h1
  have hdd1 : dt * dt ≤ 1 := by nlinarith
  have hbox0 : inBox ⟨-(dt * dt), 0, 0⟩ := by
    norm_num [inBox]
    constructor <;> nlinarith
  have hg0 : (SimTimeStep dt [⟨0, 0, 0⟩, ⟨1, 0, 0⟩] [⟨0, 0, 0⟩, ⟨0, 0, 0⟩] [⟨0, 1, 2⟩]
      1 0 1 ⟨0, 0, 0⟩ r).2.getD 0 0 = ⟨-dt, 0, 0⟩ := by
    rw [SimTimeStep_snd_getD _ _ _ _ _ _ _ _ _ (by norm_num)]
    simp only [stepAndCollide, stepParticle_two_particle_0]
    rw [collideParticle_of_inBox r _ _ hbox0]
  have hax : collideAxis r (1 + dt * dt) dt = (1, -dt * r) := by
    rw [collideAxis_eq, if_neg (by linarith), if_pos (by linarith), if_pos h1]
  have hax0 : collideAxis r 0 0 = (0, 0) :=
    collideAxis_of_mem r 0 0 (by norm_num) (by norm_num)
  have hg1 : (SimTimeStep dt [⟨0, 0, 0⟩, ⟨1, 0, 0⟩] [⟨0, 0, 0⟩, ⟨0, 0, 0⟩] [⟨0, 1, 2⟩]
      1 0 1 ⟨0, 0, 0⟩ r).2.getD 1 0 = ⟨-dt * r, 0, 0⟩ := by
    rw [SimTimeStep_snd_getD _ _ _ _ _ _ _ _ _ (by norm_num)]
    simp only [stepAndCollide, stepParticle_two_particle_1]
    simp [collideParticle, hax, hax0]
  refine ⟨?_, ?_, ?_⟩
  · rw [hg0]
    show -dt < 0
    linarith
  · rw [stepParticle_two_particle_1]
    show (0 : ℝ) < dt
    exact h1
  · rw [hg1]
    show -dt * r = -(dt * r)
    ring

/-- Witness for C7's amended theorem at dt = 1/2, restitution 1/2. -/
theorem two_particle_spring_witness :
    ((0 : ℝ) < 1/2) ∧ ((1 : ℝ)/2 ≤ 1) ∧ ((0 : ℝ) ≤ 1/2)
    ∧ (((SimTimeStep (1/2) [⟨0, 0, 0⟩, ⟨1, 0, 0⟩] [⟨0, 0, 0⟩, ⟨0, 0, 0⟩] [⟨0, 1, 2⟩]
          1 0 1 ⟨0, 0, 0⟩ (1/2)).2.getD 0 0).x < 0
      ∧ 0 < (stepParticle (forcesOf [⟨0, 0, 0⟩, ⟨1, 0, 0⟩] [⟨0, 0, 0⟩, ⟨0, 0, 0⟩]
          [⟨0, 1, 2⟩] 1 0 1 ⟨0, 0, 0⟩) 1 (1/2) [⟨0, 0, 0⟩, ⟨1, 0, 0⟩]
          [⟨0, 0, 0⟩, ⟨0, 0, 0⟩] 1).2.x
      ∧ ((SimTimeStep (1/2) [⟨0, 0, 0⟩, ⟨1, 0, 0⟩] [⟨0, 0, 0⟩, ⟨0, 0, 0⟩] [⟨0, 1, 2⟩]
          1 0 1 ⟨0, 0, 0⟩ (1/2)).2.getD 1 0).x = -((1/2) * (1/2))) := by
  have ha : (0 : ℝ) < 1/2 := by norm_num
  have hb : (1 : ℝ)/2 ≤ 1 := by norm_num
  have hc : (0 : ℝ) ≤ 1/2 := by norm_num
  exact ⟨ha, hb, hc, two_particle_spring (1/2) (1/2) ha hb hc⟩

/-- Modelled from the spec: the fail-fast entry validation of §7 is not in
the source (`SimTimeStep` begins directly with force initialisation); this
definition models the validating step the spec describes — a descriptive
fault for negative `particleMass`, non-positive `dt`, or a spring index
outside the particle-count range, and otherwise the behaviour of the code's
`SimTimeStep`. -/
noncomputable def SimTimeStepChecked (dt : ℝ) (positions velocities : List Vec3)
    (springs : List Spring) (stiffness damping particleMass : ℝ)
    (gravity : Vec3) (restitution : ℝ) : Except String (List Vec3 × List Vec3) :=
  if particleMass < 0 then Except.error "negative particleMass"
  else if dt ≤ 0 then Except.error "non-positive dt"
  else if springs.any (fun s =>
      decide (positions.length ≤ s.p0) || decide (positions.length ≤ s.p1)) then
    Except.error "spring index out of range"
  else Except.ok (SimTimeStep dt positions velocities springs stiffness damping
    particleMass gravity restitution)

/-- C8 counterexample: with `particleMass = -1` the validating step of the
spec faults, but the code's `SimTimeStep` continues and produces a definite
numeric result — there is no entry validation in the source. -/
theorem input_validation_counterexample :
    SimTimeStepChecked 1 [⟨0, 0, 0⟩] [⟨0, 0, 0⟩] [] 0 0 (-1) ⟨0, 0, 1⟩ 0
        = Except.error "negative particleMass"
    ∧ SimTimeStep 1 [⟨0, 0, 0⟩] [⟨0, 0, 0⟩] [] 0 0 (-1) ⟨0, 0, 1⟩ 0
        = ([⟨0, 0, 1⟩], [⟨0, 0, 1⟩]) := by
  constructor
  · rw [SimTimeStepChecked, if_pos (by norm_num)]
  · simp only [SimTimeStep, forcesOf, List.foldl_nil, List.length_cons, List.length_nil,
      List.range_succ, List.range_zero, List.nil_append, List.map_cons, List.map_nil,
      stepAndCollide, stepParticle, collideParticle, collideAxis_eq, List.getD_cons_zero]
    norm_num [Vec3.mul, Vec3.div, Vec3.add]

/-- C8 (amended): `SimTimeStep` performs no entry validation; on malformed
input (negative `particleMass` or non-positive `dt`) it continues and totally
computes output position and velocity lists of the usual particle count. -/
theorem no_input_validation (dt st dm m r : ℝ) (ps vs : List Vec3)
    (springs : List Spring) (g : Vec3) (hbad : m < 0 ∨ dt ≤ 0) :
    (SimTimeStep dt ps vs springs st dm m g r).1.length = ps.length
      ∧ (SimTimeStep dt ps vs springs st dm m g r).2.length = ps.length := by
  constructor <;> simp [SimTimeStep_fst, SimTimeStep_snd]

/-- Witness for C8's amended theorem at `particleMass = -1`. -/
theorem no_input_validation_witness :
    ((-1 : ℝ) < 0 ∨ (1 : ℝ) ≤ 0)
    ∧ ((SimTimeStep 1 [⟨0, 0, 0⟩] [⟨0, 0, 0⟩] [] 0 0 (-1) ⟨0, 0, 1⟩ 0).1.length
          = ([⟨0, 0, 0⟩] : List Vec3).length
      ∧ (SimTimeStep 1 [⟨0, 0, 0⟩] [⟨0, 0, 0⟩] [] 0 0 (-1) ⟨0, 0, 1⟩ 0).2.length
          = ([⟨0, 0, 0⟩] : List Vec3).length) := by
  have hbad : (-1 : ℝ) < 0 ∨ (1 : ℝ) ≤ 0 := Or.inl (by norm_num)
  exact ⟨hbad, no_input_validation 1 0 0 (-1) 0 [⟨0, 0, 0⟩] [⟨0, 0, 0⟩] [] ⟨0, 0, 1⟩ hbad⟩

/-- C9: `SimTimeStep` never mutates the spring records and never changes the
number of particles: the springs sequence is returned unchanged and the
position and velocity arrays keep their lengths. -/
theorem frame_preservation (dt stiffness damping m r : ℝ) (st0 : SimState)
    (g : Vec3) (hlen : st0.velocities.length = st0.positions.length) :
    (SimTimeStepState dt st0 stiffness damping m g r).springs = st0.springs
    ∧ (SimTimeStepState dt st0 stiffness damping m g r).positions.length
        = st0.positions.length
    ∧ (SimTimeStepState dt st0 stiffness damping m g r).velocities.length
        = st0.velocities.length := by
  refine ⟨rfl, ?_, ?_⟩ <;>
    simp [SimTimeStepState, SimTimeStep_fst, SimTimeStep_snd, hlen]

/-- Witness for C9 on a concrete one-particle, one-spring state. -/
theorem frame_preservation_witness :
    ((⟨[⟨0, 0, 0⟩], [⟨0, 0, 0⟩], [⟨0, 0, 1⟩]⟩ : SimState).velocities.length
        = (⟨[⟨0, 0, 0⟩], [⟨0, 0, 0⟩], [⟨0, 0, 1⟩]⟩ : SimState).positions.length)
    ∧ ((SimTimeStepState 1 ⟨[⟨0, 0, 0⟩], [⟨0, 0, 0⟩], [⟨0, 0, 1⟩]⟩ 1 1 1 ⟨0, 0, 0⟩ 0).springs
          = (⟨[⟨0, 0, 0⟩], [⟨0, 0, 0⟩], [⟨0, 0, 1⟩]⟩ : SimState).springs
      ∧ (SimTimeStepState 1 ⟨[⟨0, 0, 0⟩], [⟨0, 0, 0⟩], [⟨0, 0, 1⟩]⟩ 1 1 1 ⟨0, 0, 0⟩ 0).positions.length
          = (⟨[⟨0, 0, 0⟩], [⟨0, 0, 0⟩], [⟨0, 0, 1⟩]⟩ : SimState).positions.length
      ∧ (SimTimeStepState 1 ⟨[⟨0, 0, 0⟩], [⟨0, 0, 0⟩], [⟨0, 0, 1⟩]⟩ 1 1 1 ⟨0, 0, 0⟩ 0).velocities.length
          = (⟨[⟨0, 0, 0⟩], [⟨0, 0, 0⟩], [⟨0, 0, 1⟩]⟩ : SimState).velocities.length) :=
  ⟨rfl, frame_preservation 1 1 1 1 0 ⟨[⟨0, 0, 0⟩], [⟨0, 0, 0⟩], [⟨0, 0, 1⟩]⟩ ⟨0, 0, 0⟩ rfl⟩

/-- C10: the output of `SimTimeStep` is invariant under any permutation of
the springs list — each spring's contribution enters the per-particle force
buffer by commutative, associative addition before the integration phase
reads it. -/
theorem spring_order_invariance (dt st dm m r : ℝ) (ps vs : List Vec3)
    (springs1 springs2 : List Spring) (g : Vec3)
    (hperm : springs1.Perm springs2) :
    SimTimeStep dt ps vs springs1 st dm m g r
      = SimTimeStep dt ps vs springs2 st dm m g r := by
  have hF : forcesOf ps vs springs1 st dm m g = forcesOf ps vs springs2 st dm m g := by
    funext k
    rw [forcesOf_apply, forcesOf_apply]
    congr 1
    exact List.Perm.sum_eq (hperm.map _)
  simp only [SimTimeStep, hF]

/-- Witness for C10: swapping two springs yields an identical step result. -/
theorem spring_order_invariance_witness :
    (([⟨0, 1, 1⟩, ⟨1, 0, 2⟩] : List Spring).Perm [⟨1, 0, 2⟩, ⟨0, 1, 1⟩])
    ∧ SimTimeStep 1 [⟨0, 0, 0⟩, ⟨1, 0, 0⟩] [⟨0, 0, 0⟩, ⟨0, 0, 0⟩]
        [⟨0, 1, 1⟩, ⟨1, 0, 2⟩] 1 1 1 ⟨0, 0, 0⟩ 0
      = SimTimeStep 1 [⟨0, 0, 0⟩, ⟨1, 0, 0⟩] [⟨0, 0, 0⟩, ⟨0, 0, 0⟩]
        [⟨1, 0, 2⟩, ⟨0, 1, 1⟩] 1 1 1 ⟨0, 0, 0⟩ 0 :=
  ⟨List.Perm.swap (⟨1, 0, 2⟩ : Spring) (⟨0, 1, 1⟩ : Spring) [],
   spring_order_invariance 1 1 1 1 0 [⟨0, 0, 0⟩, ⟨1, 0, 0⟩] [⟨0, 0, 0⟩, ⟨0, 0, 0⟩]
     [⟨0, 1, 1⟩, ⟨1, 0, 2⟩] [⟨1, 0, 2⟩, ⟨0, 1, 1⟩] ⟨0, 0, 0⟩
     (List.Perm.swap (⟨1, 0, 2⟩ : Spring) (⟨0, 1, 1⟩ : Spring) [])⟩
